import Mathlib

/-!
Verification of the clawdbot-gemini message-orchestration pipeline.

Shallow embedding of the Python sources under `src/src/core` and
`src/src/api`: text is modelled as `List Char`, the in-process session
dictionary and the per-user memory files as association lists, and the
fallible collaborators (LLM backend, web search) as `Except`-valued
oracles.  Every definition mirrors the corresponding Python function;
logging, timestamps from `datetime.now()` and the serialized debug dump
are the only parts abstracted (timestamps become an opaque `Nat` input,
the formatted clock string an opaque `List Char` input).
-/

namespace Clawdbot

/-- Text, modelled as the list of its characters (Python `str`). -/
abbrev Str := List Char

/-- Character list of a Lean string literal. -/
def strOf (s : String) : Str := s.data

/-- ASCII whitespace recognised by Python `str.strip()` (the Unicode
space classes beyond ASCII are not used anywhere in this development). -/
def isSpaceChar (c : Char) : Bool :=
  c == ' ' || c == '\t' || c == '\n' || c == '\r' || c == '\x0b' || c == '\x0c'

/-- Python `str.strip()`: drop whitespace from both ends. -/
def pyStrip (s : Str) : Str :=
  ((s.dropWhile isSpaceChar).reverse.dropWhile isSpaceChar).reverse

/-- ASCII lower-casing of one character, as done by Python `str.lower()`
on the ASCII range (all keyword matching in the source is ASCII or CJK,
and CJK characters are fixed points of `lower`). -/
def lowerChar (c : Char) : Char :=
  if 'A' ≤ c && c ≤ 'Z' then Char.ofNat (c.toNat + 32) else c

/-- Python `str.lower()` on the fragment of Unicode the source uses. -/
def pyLower (s : Str) : Str := s.map lowerChar

/-- Does `s` begin with `pat`? -/
def leadsWith : Str → Str → Bool
  | [], _ => true
  | _ :: _, [] => false
  | p :: ps, c :: cs => p == c && leadsWith ps cs

/-- Python substring test `pat in s`. -/
def containsSub (pat : Str) : Str → Bool
  | [] => pat.isEmpty
  | c :: cs => leadsWith pat (c :: cs) || containsSub pat cs

/-- Python `x in s` for a single character. -/
def hasChar (x : Char) : Str → Bool
  | [] => false
  | c :: cs => c == x || hasChar x cs

/-! ## IntentDetector (src/src/core/services/intent_detector.py) -/

/-- AgentMode enum from src/src/core/types.py. -/
inductive AgentMode where
  | conversation
  | code_generation
  | code_explanation
  | debugging
deriving DecidableEq, Repr

/-- String value of each enum member. -/
def AgentMode.value : AgentMode → Str
  | .conversation => strOf "conversation"
  | .code_generation => strOf "code_generation"
  | .code_explanation => strOf "code_explanation"
  | .debugging => strOf "debugging"

/-- Keyword set for code explanation (checked first). -/
def explainKeywords : List Str :=
  [strOf "解释", strOf "说明", strOf "explain", strOf "what does", strOf "这段代码"]

/-- Keyword set for code generation (checked second). -/
def codeKeywords : List Str :=
  [strOf "写代码", strOf "生成代码", strOf "实现", strOf "create", strOf "write code",
   strOf "implement", strOf "写一个", strOf "写个", strOf "用python", strOf "用js",
   strOf "python script", strOf "write a script", strOf "coding"]

/-- Keyword set for debugging (checked third). -/
def debugKeywords : List Str :=
  [strOf "报错", strOf "错误", strOf "bug", strOf "debug", strOf "修复", strOf "问题"]

/-- IntentDetector.detect_intent: lower-case and strip the message, then
try the three keyword sets in order; first match wins, default is
conversation. -/
def detectIntent (message : Str) : Str :=
  let messageLower := pyStrip (pyLower message)
  if explainKeywords.any (fun kw => containsSub kw messageLower) then
    strOf "code_explanation"
  else if codeKeywords.any (fun kw => containsSub kw messageLower) then
    strOf "code_generation"
  else if debugKeywords.any (fun kw => containsSub kw messageLower) then
    strOf "debugging"
  else
    strOf "conversation"

/-- IntentDetector.get_mode_from_intent: dictionary lookup with
conversation as the default. -/
def getModeFromIntent (intent : Str) : AgentMode :=
  if intent = strOf "code_generation" then .code_generation
  else if intent = strOf "code_explanation" then .code_explanation
  else if intent = strOf "debugging" then .debugging
  else .conversation

/-- IntentDetector.determine_mode: composition of the two above. -/
def determineMode (message : Str) : AgentMode :=
  getModeFromIntent (detectIntent message)

/-! ## Association lists

Python dictionaries (the in-memory session fallback) and the directory
of per-user memory files are both modelled as association lists with
string keys. -/

/-- Dictionary lookup (`d.get(key)`). -/
def alistGet {α : Type} : List (Str × α) → Str → Option α
  | [], _ => none
  | (k, v) :: rest, key => if k = key then some v else alistGet rest key

/-- Dictionary update (`d[key] = v`), keeping keys unique. -/
def alistSet {α : Type} : List (Str × α) → Str → α → List (Str × α)
  | [], key, v => [(key, v)]
  | (k, w) :: rest, key, v =>
    if k = key then (key, v) :: rest else (k, w) :: alistSet rest key v

/-- Dictionary deletion (`del d[key]` / `os.remove`). -/
def alistErase {α : Type} : List (Str × α) → Str → List (Str × α)
  | [], _ => []
  | (k, w) :: rest, key =>
    if k = key then alistErase rest key else (k, w) :: alistErase rest key

/-! ## SessionManager (src/src/core/session.py), in-memory path

Redis is disabled by default (`REDIS_ENABLED` defaults to false) and the
fallback `_memory_history` dictionary is the store the repository
actually exercises; it is what the claims point at. -/

/-- One stored message of a session history.  The `datetime.now()`
timestamp is modelled as an opaque natural number supplied by the
caller. -/
structure Turn where
  role : Str
  content : Str
  timestamp : Nat
deriving DecidableEq, Repr

/-- The `_memory_history` dictionary: session id to turn list. -/
abbrev SessionStore := List (Str × List Turn)

/-- Python negative-index slice `l[-k:]`.  Note the Python quirk that
`l[-0:]` is the whole list, faithfully reproduced by the `k = 0` case. -/
def pySliceLast {α : Type} (k : Nat) (l : List α) : List α :=
  if k = 0 then l else l.drop (l.length - k)

/-- SessionManager.add_message, in-memory branch: append the new turn to
the session list and trim the list to the last `max_history * 2`
entries when it exceeds that bound. -/
def addMessage (maxHistory : Nat) (store : SessionStore) (sessionId : Str)
    (role content : Str) (now : Nat) : SessionStore :=
  let message : Turn := ⟨role, content, now⟩
  let old := (alistGet store sessionId).getD []
  let appended := old ++ [message]
  let trimmed :=
    if appended.length > maxHistory * 2 then pySliceLast (maxHistory * 2) appended
    else appended
  alistSet store sessionId trimmed

/-- SessionManager.get_history, in-memory branch
(`memory_history.get(session_id, [])`). -/
def getHistory (store : SessionStore) (sessionId : Str) : List Turn :=
  (alistGet store sessionId).getD []

/-- SessionManager.clear_session, in-memory branch. -/
def clearSession (store : SessionStore) (sessionId : Str) : SessionStore :=
  alistErase store sessionId

/-- SessionManager.add_user_message. -/
def addUserMessage (maxHistory : Nat) (store : SessionStore) (sessionId content : Str)
    (now : Nat) : SessionStore :=
  addMessage maxHistory store sessionId (strOf "user") content now

/-- SessionManager.add_assistant_message. -/
def addAssistantMessage (maxHistory : Nat) (store : SessionStore) (sessionId content : Str)
    (now : Nat) : SessionStore :=
  addMessage maxHistory store sessionId (strOf "assistant") content now

/-- A sequence of add_message calls for one session, one per listed
turn. -/
def addAll (maxHistory : Nat) (store : SessionStore) (sessionId : Str)
    (ts : List Turn) : SessionStore :=
  ts.foldl (fun s t => addMessage maxHistory s sessionId t.role t.content t.timestamp) store

/-! ## MemoryBank (src/src/core/memory.py)

The directory of `<safe_uid>.md` files is modelled as an association
list from the sanitized file-name stem to the raw file content. -/

/-- File-name stem to raw content. -/
abbrev MemoryStore := List (Str × Str)

/-- File-name sanitization used by every MemoryBank operation:
`user_id.replace(":", "_").replace("/", "_")`. -/
def safeUid (userId : Str) : Str :=
  userId.map (fun c => if c = ':' || c = '/' then '_' else c)

/-- MemoryBank.get_user_memory: read the file for the sanitized id,
strip it, and return the content when non-empty, the empty string
otherwise (also when the file does not exist). -/
def getUserMemory (store : MemoryStore) (userId : Str) : Str :=
  match alistGet store (safeUid userId) with
  | some raw =>
    let content := pyStrip raw
    if content.isEmpty then [] else content
  | none => []

/-- MemoryBank.save_user_memory: overwrite the file for the sanitized
id. -/
def saveUserMemory (store : MemoryStore) (userId : Str) (content : Str) : MemoryStore :=
  alistSet store (safeUid userId) content

/-- MemoryBank.delete_user_memory: remove the file for the sanitized
id. -/
def deleteUserMemory (store : MemoryStore) (userId : Str) : MemoryStore :=
  alistErase store (safeUid userId)

/-! ## MemoryExtractor (src/src/core/memory_extractor.py) -/

/-- MemoryExtractor.should_trigger:
`history_length > 0 and history_length % trigger_interval == 0`. -/
def shouldTrigger (triggerInterval : Nat) (historyLength : Nat) : Bool :=
  historyLength > 0 && historyLength % triggerInterval == 0

/-! ## Agent identity sanitization (src/src/core/agent.py, lines 87 to 94) -/

/-- The regex substitution `re.sub(r'[^a-zA-Z0-9_\-:]', '', s)`. -/
def sanitizeUid (s : Str) : Str :=
  s.filter (fun c =>
    ('a' ≤ c && c ≤ 'z') || ('A' ≤ c && c ≤ 'Z') || ('0' ≤ c && c ≤ '9') ||
    c == '_' || c == '-' || c == ':')

/-! ## Callback session id parsing (src/src/api/routes.py, clawdbot_callback) -/

/-- Python `s.split(sep)` for a one-character separator. -/
def splitOnChar (sep : Char) : Str → List Str
  | [] => [[]]
  | c :: cs =>
    match splitOnChar sep cs with
    | [] => [[]]
    | h :: t => if c == sep then [] :: h :: t else (c :: h) :: t

/-- Python `sep.join(parts)` for a one-character separator. -/
def joinWith (sep : Char) : List Str → Str
  | [] => []
  | [x] => x
  | x :: y :: rest => x ++ sep :: joinWith sep (y :: rest)

/-- Parsed callback routing identity of the callback endpoint. -/
structure CallbackTarget where
  platform : Str
  msgType : Str
  chatId : Str
deriving DecidableEq, Repr

/-- Session id parsing inside the /api/clawdbot/callback endpoint
(routes.py lines 111 to 136): the colon-delimited form is tried first,
then the legacy underscore-delimited form, and anything else is a
structured error.  With three or more fields the tail fields are
re-joined into the chat id; with exactly two the message type defaults
to private. -/
def parseCallbackSessionId (sessionId : Str) : Except Str CallbackTarget :=
  if hasChar ':' sessionId then
    match splitOnChar ':' sessionId with
    | p0 :: p1 :: p2 :: rest => .ok ⟨p0, p1, joinWith ':' (p2 :: rest)⟩
    | [p0, p1] => .ok ⟨p0, strOf "private", p1⟩
    | _ => .error (strOf "Invalid colon session format")
  else if hasChar '_' sessionId then
    match splitOnChar '_' sessionId with
    | p0 :: p1 :: p2 :: rest => .ok ⟨p0, p1, joinWith '_' (p2 :: rest)⟩
    | [p0, p1] => .ok ⟨p0, strOf "private", p1⟩
    | _ => .error (strOf "Invalid underscore session format")
  else .error (strOf "Unknown session format")

/-! ## Inline command scanning (src/src/core/agent.py, lines 178 and 211)

Both inline-command regexes have the shape `\[Key:\s*(.*?)\]` and are
used through re.search with re.DOTALL, so the capture is the span from
the key to the first closing bracket, newlines included, and the
handler applies group(1).strip().  The Search pattern additionally
carries re.IGNORECASE; the Clawdbot pattern does not. -/

/-- Comparison of one pattern character with one text character, case
folded when the regex carries re.IGNORECASE. -/
def charMatches (caseInsensitive : Bool) (p c : Char) : Bool :=
  if caseInsensitive then lowerChar p == lowerChar c else p == c

/-- Does the text start with the literal pattern key? -/
def matchKey (caseInsensitive : Bool) : Str → Str → Bool
  | [], _ => true
  | _ :: _, [] => false
  | p :: ps, c :: cs =>
    charMatches caseInsensitive p c && matchKey caseInsensitive ps cs

/-- Characters strictly before the first closing bracket, or none when
no closing bracket follows (with re.DOTALL the scan crosses newlines). -/
def takeUntilClose : Str → Option Str
  | [] => none
  | c :: cs =>
    if c == ']' then some [] else (takeUntilClose cs).map (fun r => c :: r)

/-- Leftmost re.search match of `key \s* (.*?) \]`: the first occurrence
of the literal key that is followed by a closing bracket; the returned
value is group(1).strip(), which equals the strip of the whole span
between key and bracket because the greedy whitespace run eaten by the
pattern is also removed by strip. -/
def scanCmd (caseInsensitive : Bool) (key : Str) : Str → Option Str
  | [] => none
  | c :: cs =>
    if matchKey caseInsensitive key (c :: cs) then
      match takeUntilClose ((c :: cs).drop key.length) with
      | some body => some (pyStrip body)
      | none => scanCmd caseInsensitive key cs
    else scanCmd caseInsensitive key cs

/-- Extraction of the query of a `[Search: ...]` marker, agent.py line
178: re.IGNORECASE and re.DOTALL. -/
def scanSearch (text : Str) : Option Str := scanCmd true (strOf "[Search:") text

/-- Extraction of the task of a `[Clawdbot: ...]` marker, agent.py line
211: re.DOTALL only, no re.IGNORECASE. -/
def scanClawdbot (text : Str) : Option Str := scanCmd false (strOf "[Clawdbot:") text

/-! ## Orchestrator (src/src/core/agent.py, Agent.process_message)

The model follows the source line by line.  Fallible collaborators are
`Except`-valued oracles in the configuration: the LLM backend (its two
possible invocations per call are one function of the message list) and
the DuckDuckGo search.  Fire-and-forget effects, which in the source
only spawn work or call out (the notification callback, the Clawdbot
background task, the memory-extraction task), are recorded as events.
Logging and the /debug serialization are dropped; the session-info
injection into the first prompt message adds dictionary keys that are
not role or content and is dropped as well.  Timestamps and the
formatted clock string are opaque inputs. -/

/-- One prompt message (a role/content dictionary). -/
structure PMsg where
  role : Str
  content : Str
deriving DecidableEq, Repr

/-- PromptBuilder.build_conversation_prompt with include_system true and
a system_prompt_override, the way Agent.process_message calls it: the
system message, the history turns whose role is user, assistant or
system, then the new user turn. -/
def buildConversationPrompt (history : List Turn) (currentMessage : Str)
    (systemPromptOverride : Str) : List PMsg :=
  ⟨strOf "system", systemPromptOverride⟩ ::
    (history.filterMap (fun t =>
      if t.role = strOf "user" ∨ t.role = strOf "assistant" ∨ t.role = strOf "system"
      then some ⟨t.role, t.content⟩ else none)) ++
    [⟨strOf "user", currentMessage⟩]

/-- Derivation of real_user_id in process_message: the last
colon-separated part, replaced by the whole id when the id contains a
colon (net effect: the whole id), then the regex sanitization. -/
def realUserIdOf (userId : Str) : Str :=
  let r0 := ((splitOnChar ':' userId).getLast?).getD []
  let r1 := if hasChar ':' userId then userId else r0
  sanitizeUid r1

/-- The strict session-context block injected into the system prompt
(agent.py lines 125 to 140).  The prose is abbreviated; no claim
depends on its exact wording, only on which dynamic pieces it embeds. -/
def strictSessionContext (currentTime : Str) (realUserId : Str) : Str :=
  strOf "\n\n## ⚠️ Session Context Enforcement (CRITICAL)\nCurrent System Time: " ++
  currentTime ++
  strOf " (Trusted Source)\nCurrent Session User ID: " ++ realUserId ++
  strOf "\nYou are communicating EXCLUSIVELY with the user identified as " ++ realUserId ++
  strOf ".\n### 用户隔离规则 (User Isolation Rules)\n1. 你现在只与 " ++ realUserId ++
  strOf " 对话。绝对不要把其他用户的记忆、称呼、偏好带入当前对话。\n" ++
  strOf "## 🛠️ 内置网页搜索能力 (Native Tool - Search)\n[Search: 这里填写你的搜索关键词]\n"

/-- Dynamic merge of persona, session context and long-term memory
(agent.py lines 142 to 145). -/
def fullSystemPromptOf (baseSystem sessionContext userMemory : Str) : Str :=
  if userMemory.isEmpty then baseSystem ++ ('\n' :: sessionContext)
  else
    baseSystem ++ ('\n' :: sessionContext) ++
    strOf "\n\n## 关于该用户的长期记忆 (Always Remember)\n" ++ userMemory

/-- The reset keywords of agent.py line 97. -/
def resetKeywords : List Str :=
  [strOf "/reset", strOf "/clear", strOf "重置", strOf "清除记忆"]

/-- The canned reset confirmation. -/
def resetText : Str :=
  strOf "记忆已重置。我是全新的小汉堡，我们重新开始吧！\n(已清除对话历史和长期记忆文件)"

/-- The apology text of the top-level exception handler. -/
def apologyText (e : Str) : Str := strOf "抱歉，处理您消息时出现了问题：" ++ e

/-- The search-in-progress notification text. -/
def searchNotice (query : Str) : Str :=
  strOf "🔍 正在使用 DuckDuckGo 检索: " ++ query ++ strOf "..."

/-- The observation turn fed back to the LLM after a search. -/
def observationText (query results : Str) : Str :=
  strOf "系统执行搜索 '" ++ query ++ strOf "' 得到如下结果：\n\n" ++ results ++
  strOf "\n\n请根据上述搜索结果回答用户的最初问题。如果搜索内容不足以回答，可如实告知。"

/-- The immediate acknowledgement that replaces the response text when a
Clawdbot task is spawned. -/
def ackText (taskPrompt : Str) : Str :=
  strOf "收到，正在调用 Clawdbot 为您处理：" ++ taskPrompt ++
  strOf "...\n（请稍候，结果将异步发送）"

/-- Observable fire-and-forget effects of one process_message call. -/
inductive Ev where
  | llmCall : Ev
  | notified (target text : Str) : Ev
  | searchRun (query : Str) : Ev
  | clawdbotSpawn (task target : Str) : Ev
  | extractSpawn (userId : Str) : Ev
deriving DecidableEq, Repr

/-- The dictionary returned by process_message (usage and debug_info
carry no information relevant to any claim and are dropped). -/
structure PResult where
  success : Bool
  text : Str
  mode : Str
  error : Option Str
deriving DecidableEq, Repr

/-- The shared mutable state touched by process_message. -/
structure AgentState where
  sessions : SessionStore
  memories : MemoryStore
deriving DecidableEq, Repr

/-- The Agent configuration and its collaborators. -/
structure AgentCfg where
  llm : List PMsg → Except Str Str
  searchTool : Str → Except Str Str
  clawdbotConfigured : Bool
  notifyConfigured : Bool
  baseSystemPrompt : Str
  currentTime : Str
  now : Nat
  maxHistory : Nat
  triggerInterval : Nat

/-- The error dictionary of the top-level exception handler (agent.py
lines 253 to 260); current_mode holds the mode detected earlier in the
call, every throwing step running after detection. -/
def errorResult (mode : AgentMode) (e : Str) : PResult :=
  { success := false, text := apologyText e, mode := mode.value, error := some e }

/-- Steps 1 to 4 of the pipeline: memory lookup, system-prompt merge and
prompt assembly, agent.py lines 116 to 150. -/
def assembledPrompt (cfg : AgentCfg) (st : AgentState) (userId chatId message : Str) :
    List PMsg :=
  let realUserId := realUserIdOf userId
  let userMemory := getUserMemory st.memories realUserId
  let sysPrompt := fullSystemPromptOf cfg.baseSystemPrompt
    (strictSessionContext cfg.currentTime realUserId) userMemory
  buildConversationPrompt (getHistory st.sessions chatId) message sysPrompt

/-- The tail of process_message shared by the search and no-search
paths: the Clawdbot scan over the final response text (agent.py lines
209 to 229), persistence of the user turn and the final response text
(lines 231 to 233), and the memory-extraction trigger (lines 235 to
241). -/
def finishMessage (cfg : AgentCfg) (st : AgentState)
    (sessionId realUserId message : Str) (mode : AgentMode)
    (responseText : Str) (targetSessionId : Str) (evs : List Ev) :
    PResult × AgentState × List Ev :=
  let step :=
    match scanClawdbot responseText with
    | some taskPrompt =>
      if cfg.clawdbotConfigured && cfg.notifyConfigured then
        (ackText taskPrompt, evs ++ [Ev.clawdbotSpawn taskPrompt targetSessionId])
      else (responseText, evs)
    | none => (responseText, evs)
  let finalText := step.1
  let evs1 := step.2
  let sessions1 := addUserMessage cfg.maxHistory st.sessions sessionId message cfg.now
  let sessions2 := addAssistantMessage cfg.maxHistory sessions1 sessionId finalText cfg.now
  let st1 : AgentState := { st with sessions := sessions2 }
  let updatedHistory := getHistory st1.sessions sessionId
  let evs2 :=
    if shouldTrigger cfg.triggerInterval updatedHistory.length
    then evs1 ++ [Ev.extractSpawn realUserId] else evs1
  ({ success := true, text := finalText, mode := mode.value, error := none }, st1, evs2)

/-- Agent.process_message (agent.py lines 56 to 260).  Returns the
result dictionary, the state after the call, and the recorded
fire-and-forget events.  An `Except.error` from an oracle models an
exception at the corresponding await; the top-level handler turns it
into the apologetic error dictionary while keeping the state mutations
already performed. -/
def processMessage (cfg : AgentCfg) (st : AgentState)
    (userId chatId message : Str) (callbackSessionId : Option Str) :
    PResult × AgentState × List Ev :=
  let sessionId := chatId
  let realUserId := realUserIdOf userId
  if pyStrip message ∈ resetKeywords then
    ({ success := true, text := resetText, mode := strOf "conversation", error := none },
     { sessions := clearSession st.sessions sessionId,
       memories := deleteUserMemory st.memories realUserId }, [])
  else
    let intent := detectIntent message
    let mode := getModeFromIntent intent
    let targetSessionId := callbackSessionId.getD sessionId
    match cfg.llm (assembledPrompt cfg st userId chatId message) with
    | .error e => (errorResult mode e, st, [Ev.llmCall])
    | .ok response1 =>
      match scanSearch response1 with
      | some query =>
        let evs := [Ev.llmCall] ++
          (if cfg.notifyConfigured
           then [Ev.notified targetSessionId (searchNotice query)] else []) ++
          [Ev.searchRun query]
        match cfg.searchTool query with
        | .error e => (errorResult mode e, st, evs)
        | .ok searchResults =>
          let observation := observationText query searchResults
          let promptMessages2 := assembledPrompt cfg st userId chatId message ++
            [⟨strOf "assistant", response1⟩, ⟨strOf "user", observation⟩]
          let sessions1 :=
            addAssistantMessage cfg.maxHistory st.sessions sessionId response1 cfg.now
          let sessions2 :=
            addUserMessage cfg.maxHistory sessions1 sessionId observation cfg.now
          let st2 : AgentState := { st with sessions := sessions2 }
          match cfg.llm promptMessages2 with
          | .error e => (errorResult mode e, st2, evs ++ [Ev.llmCall])
          | .ok response2 =>
            finishMessage cfg st2 sessionId realUserId message mode response2
              targetSessionId (evs ++ [Ev.llmCall])
      | none =>
        finishMessage cfg st sessionId realUserId message mode response1
          targetSessionId [Ev.llmCall]

/-- A minimal concrete configuration used by the concrete witnesses. -/
def sampleCfg : AgentCfg where
  llm := fun _ => .ok (strOf "hello there")
  searchTool := fun _ => .ok (strOf "result text")
  clawdbotConfigured := false
  notifyConfigured := false
  baseSystemPrompt := []
  currentTime := []
  now := 0
  maxHistory := 10
  triggerInterval := 10

/-- Number of web searches recorded in an event list. -/
def searchCount (evs : List Ev) : Nat :=
  evs.countP (fun e => match e with | .searchRun _ => true | _ => false)

/-- Configuration for the concrete single-search witness: the first LLM
call (two prompt messages: system plus the new user turn on an empty
history) answers with a search marker; the re-invocation after the
search (four messages) answers with both a second search marker and a
Clawdbot marker. -/
def searchWitnessCfg : AgentCfg :=
  { sampleCfg with
      llm := fun ms =>
        if ms.length == 2 then .ok (strOf "[Search: cats]")
        else .ok (strOf "see [Search: again] and [Clawdbot: build a snake game] okay"),
      clawdbotConfigured := true,
      notifyConfigured := true }

/-- A state whose session history for the witness chat id is saturated
at the trim cap of twenty turns. -/
def saturatedState : AgentState :=
  ⟨[(strOf "qq:user:7:20260214", List.replicate 20 ⟨strOf "user", [], 0⟩)], []⟩

/-! ## Interleaved store operations (user isolation)

The event loop interleaves concurrent process_message calls at await
points; between awaits the dictionary and file mutations below run
atomically.  A call for session `sid` and user `uid` only ever performs
session operations keyed by `sid` and memory operations keyed by
`safeUid uid` (see the frame theorem about processMessage below), so an
interleaving of two calls is an interleaving of two such operation
traces. -/

/-- One atomic mutation of the shared state: a session append
(SessionManager.add_message), a session clear, a memory overwrite
(MemoryBank.save_user_memory, as performed by the background
extraction), or a memory delete. -/
inductive StoreOp where
  | addTurn (sessionId : Str) (role content : Str) (now : Nat)
  | clear (sessionId : Str)
  | memSave (userId : Str) (content : Str)
  | memDelete (userId : Str)
deriving DecidableEq, Repr

/-- Effect of one operation on the shared state. -/
def applyOp (maxHistory : Nat) (st : AgentState) : StoreOp → AgentState
  | .addTurn sid r c n => { st with sessions := addMessage maxHistory st.sessions sid r c n }
  | .clear sid => { st with sessions := clearSession st.sessions sid }
  | .memSave u content => { st with memories := saveUserMemory st.memories u content }
  | .memDelete u => { st with memories := deleteUserMemory st.memories u }

/-- Effect of an operation trace. -/
def applyOps (maxHistory : Nat) (st : AgentState) (ops : List StoreOp) : AgentState :=
  ops.foldl (applyOp maxHistory) st

/-- The session key an operation touches, if any. -/
def opSessionId : StoreOp → Option Str
  | .addTurn sid _ _ _ => some sid
  | .clear sid => some sid
  | _ => none

/-- The memory file key an operation touches, if any. -/
def opMemKey : StoreOp → Option Str
  | .memSave u _ => some (safeUid u)
  | .memDelete u => some (safeUid u)
  | _ => none

/-- Operations a call for session `sid` with memory file key `memKey`
may perform. -/
abbrev opsFor (sid memKey : Str) (op : StoreOp) : Prop :=
  (opSessionId op = none ∨ opSessionId op = some sid) ∧
  (opMemKey op = none ∨ opMemKey op = some memKey)

/-- `Interleaving t a b` holds when `t` is an arbitrary interleaving of
the traces `a` and `b`, preserving the internal order of each. -/
inductive Interleaving : List StoreOp → List StoreOp → List StoreOp → Prop
  | nil : Interleaving [] [] []
  | left {t a b : List StoreOp} (op : StoreOp) :
      Interleaving t a b → Interleaving (op :: t) (op :: a) b
  | right {t a b : List StoreOp} (op : StoreOp) :
      Interleaving t a b → Interleaving (op :: t) a (op :: b)

/-! ## Helper notions used only by the theorems -/

/-- The last `n` elements of a list, in order. -/
def takeLast {α : Type} (n : Nat) (l : List α) : List α := l.drop (l.length - n)

/-- The effect of one add_message call on the stored history of the
targeted session. -/
def trimAppend (maxHistory : Nat) (h : List Turn) (t : Turn) : List Turn :=
  let appended := h ++ [t]
  if appended.length > maxHistory * 2 then pySliceLast (maxHistory * 2) appended
  else appended

/-- Iterated `trimAppend`. -/
def applyTurns (maxHistory : Nat) (h : List Turn) (ts : List Turn) : List Turn :=
  ts.foldl (fun acc t => trimAppend maxHistory acc t) h

/-- Effect of one operation on the history of session `sid` alone. -/
def sessionStep (maxHistory : Nat) (sid : Str) (h : List Turn) : StoreOp → List Turn
  | .addTurn sid' r c n => if sid' = sid then trimAppend maxHistory h ⟨r, c, n⟩ else h
  | .clear sid' => if sid' = sid then [] else h
  | _ => h

/-- Effect of one operation on the raw memory record with file key `k`
alone. -/
def memStep (k : Str) (v : Option Str) : StoreOp → Option Str
  | .memSave u content => if safeUid u = k then some content else v
  | .memDelete u => if safeUid u = k then none else v
  | _ => v

end Clawdbot

namespace Clawdbot

/-- C7 — Intent priority: classification is a pure, deterministic,
case-insensitive substring match over the keyword sets checked in the
fixed order explanation, code-generation, debugging, first match
winning, with conversation as the default; in particular the three
examples of the claim evaluate as stated, a message matching both the
explanation and the code-generation sets is classified as explanation, a
message matching both the code-generation and the debugging sets is
classified as code generation, upper-cased variants classify the same,
and every message is assigned one of the four intents. -/
theorem intent_priority :
    determineMode (strOf "请解释一下这段代码") = AgentMode.code_explanation ∧
    determineMode (strOf "debug this error") = AgentMode.debugging ∧
    determineMode (strOf "你好") = AgentMode.conversation ∧
    containsSub (strOf "这段代码") (pyStrip (pyLower (strOf "请解释一下这段代码"))) = true ∧
    determineMode (strOf "explain how to implement this") = AgentMode.code_explanation ∧
    containsSub (strOf "implement") (pyStrip (pyLower (strOf "explain how to implement this"))) = true ∧
    determineMode (strOf "写代码时报错了") = AgentMode.code_generation ∧
    containsSub (strOf "报错") (pyStrip (pyLower (strOf "写代码时报错了"))) = true ∧
    determineMode (strOf "DEBUG THIS ERROR") = AgentMode.debugging ∧
    determineMode (strOf "EXPLAIN this To me") = AgentMode.code_explanation ∧
    ∀ msg : Str, detectIntent msg ∈
      [strOf "code_explanation", strOf "code_generation", strOf "debugging", strOf "conversation"] := by
  refine ⟨by decide, by decide, by decide, by decide, by decide, by decide,
          by decide, by decide, by decide, by decide, ?_⟩
  intro msg
  simp only [detectIntent]
  split_ifs <;> simp

/-! ## Association-list lemmas -/

theorem alistGet_set_self {α : Type} (s : List (Str × α)) (k : Str) (v : α) :
    alistGet (alistSet s k v) k = some v := by
  induction s with
  | nil => simp [alistSet, alistGet]
  | cons hd tl ih =>
    obtain ⟨k0, v0⟩ := hd
    by_cases h : k0 = k <;> simp [alistSet, alistGet, h, ih]

theorem alistGet_set_ne {α : Type} (s : List (Str × α)) (k k' : Str) (v : α)
    (h : k' ≠ k) : alistGet (alistSet s k v) k' = alistGet s k' := by
  induction s with
  | nil => simp [alistSet, alistGet, Ne.symm h]
  | cons hd tl ih =>
    obtain ⟨k0, v0⟩ := hd
    by_cases h0 : k0 = k
    · subst h0
      simp [alistSet, alistGet, Ne.symm h]
    · simp [alistSet, alistGet, h0, ih]

theorem alistGet_erase_self {α : Type} (s : List (Str × α)) (k : Str) :
    alistGet (alistErase s k) k = none := by
  induction s with
  | nil => simp [alistErase, alistGet]
  | cons hd tl ih =>
    obtain ⟨k0, v0⟩ := hd
    by_cases h : k0 = k <;> simp [alistErase, alistGet, h, ih]

theorem alistGet_erase_ne {α : Type} (s : List (Str × α)) (k k' : Str)
    (h : k' ≠ k) : alistGet (alistErase s k) k' = alistGet s k' := by
  induction s with
  | nil => simp [alistErase, alistGet]
  | cons hd tl ih =>
    obtain ⟨k0, v0⟩ := hd
    by_cases h0 : k0 = k
    · subst h0
      simp [alistErase, alistGet, Ne.symm h, ih]
    · simp [alistErase, alistGet, h0, ih]

/-! ## takeLast lemmas -/

theorem takeLast_of_length_le {α : Type} {n : Nat} {l : List α}
    (h : l.length ≤ n) : takeLast n l = l := by
  have hz : l.length - n = 0 := by omega
  simp [takeLast, hz]

theorem length_takeLast {α : Type} (n : Nat) (l : List α) :
    (takeLast n l).length = min n l.length := by
  simp [takeLast]
  omega

theorem drop_append_add {α : Type} (a b : List α) (i : Nat) :
    (a ++ b).drop (a.length + i) = b.drop i := by
  induction a with
  | nil => simp
  | cons c a ih =>
    have harith : a.length + 1 + i = (a.length + i) + 1 := by omega
    simp only [List.cons_append, List.length_cons, harith, List.drop_succ_cons]
    exact ih

theorem takeLast_append_right {α : Type} {n : Nat} (a : List α) {b : List α}
    (h : n ≤ b.length) : takeLast n (a ++ b) = takeLast n b := by
  unfold takeLast
  rw [List.length_append,
    show a.length + b.length - n = a.length + (b.length - n) by omega,
    drop_append_add]

theorem takeLast_append_left {α : Type} {n : Nat} (a : List α) {b : List α}
    (h : b.length ≤ n) : takeLast n (a ++ b) = takeLast (n - b.length) a ++ b := by
  unfold takeLast
  rw [List.length_append,
    show a.length + b.length - n = a.length - (n - b.length) by omega]
  exact List.drop_append_of_le_length (by omega)

theorem takeLast_takeLast {α : Type} (k n : Nat) (l : List α) (h : k ≤ n) :
    takeLast k (takeLast n l) = takeLast k l := by
  unfold takeLast
  rw [List.length_drop, List.drop_drop]
  congr 1
  omega

theorem takeLast_comp {α : Type} (n : Nat) (xs ys : List α) :
    takeLast n (takeLast n xs ++ ys) = takeLast n (xs ++ ys) := by
  rcases le_total n ys.length with h | h
  · rw [takeLast_append_right _ h, takeLast_append_right _ h]
  · rw [takeLast_append_left _ h, takeLast_append_left _ h,
      takeLast_takeLast _ _ _ (by omega)]

/-! ## Trim lemmas for SessionManager.add_message -/

theorem getHistory_addMessage (m : Nat) (store : SessionStore) (sid : Str)
    (r c : Str) (n : Nat) :
    getHistory (addMessage m store sid r c n) sid =
      trimAppend m (getHistory store sid) ⟨r, c, n⟩ := by
  simp [addMessage, getHistory, trimAppend, alistGet_set_self]

theorem getHistory_addMessage_ne (m : Nat) (store : SessionStore) (sid sid' : Str)
    (r c : Str) (n : Nat) (h : sid' ≠ sid) :
    getHistory (addMessage m store sid r c n) sid' = getHistory store sid' := by
  simp [addMessage, getHistory, alistGet_set_ne _ _ _ _ h]

theorem trimAppend_eq_takeLast (m : Nat) (hm : 0 < m) (h : List Turn) (t : Turn) :
    trimAppend m h t = takeLast (m * 2) (h ++ [t]) := by
  have hm2 : ¬ m * 2 = 0 := by omega
  simp only [trimAppend]
  split
  · simp [pySliceLast, takeLast, hm2]
  · next hlen => rw [takeLast_of_length_le (by omega)]

theorem length_trimAppend_le (m : Nat) (hm : 0 < m) (h : List Turn) (t : Turn) :
    (trimAppend m h t).length ≤ m * 2 := by
  rw [trimAppend_eq_takeLast m hm, length_takeLast]
  omega

theorem applyTurns_cons (m : Nat) (h : List Turn) (t : Turn) (ts : List Turn) :
    applyTurns m h (t :: ts) = applyTurns m (trimAppend m h t) ts := rfl

theorem applyTurns_eq (m : Nat) (hm : 0 < m) (h : List Turn) (ts : List Turn)
    (hh : h.length ≤ m * 2) :
    applyTurns m h ts = takeLast (m * 2) (h ++ ts) := by
  induction ts generalizing h with
  | nil =>
    simp only [applyTurns, List.foldl_nil, List.append_nil]
    exact (takeLast_of_length_le hh).symm
  | cons t ts ih =>
    rw [applyTurns_cons,
      ih (trimAppend m h t) (length_trimAppend_le m hm h t),
      trimAppend_eq_takeLast m hm, takeLast_comp]
    simp

theorem getHistory_addAll (m : Nat) (store : SessionStore) (sid : Str)
    (ts : List Turn) :
    getHistory (addAll m store sid ts) sid = applyTurns m (getHistory store sid) ts := by
  induction ts generalizing store with
  | nil => rfl
  | cons t ts ih =>
    show getHistory
        (addAll m (addMessage m store sid t.role t.content t.timestamp) sid ts) sid = _
    rw [ih, getHistory_addMessage, applyTurns_cons]

/-- C2 — Trim bound: starting from a fresh session, after each of a
sequence of add_message appends the stored history has length at most
`2 * maxHistory`, and once more than `2 * maxHistory` turns have been
appended the retained turns are exactly the most recent
`2 * maxHistory` appended turns, in their original append order. -/
theorem trim_bound (m : Nat) (hm : 0 < m) (sid : Str) (st : SessionStore)
    (h0 : getHistory st sid = []) (turns : List Turn) (i : Nat) :
    (getHistory (addAll m st sid (turns.take i)) sid).length ≤ m * 2 ∧
    (turns.length > m * 2 →
      getHistory (addAll m st sid turns) sid = takeLast (m * 2) turns) := by
  constructor
  · rw [getHistory_addAll, h0, applyTurns_eq m hm _ _ (by simp), List.nil_append,
      length_takeLast]
    omega
  · intro _
    rw [getHistory_addAll, h0, applyTurns_eq m hm _ _ (by simp), List.nil_append]

/-- Witness for trim_bound at maxHistory 1, three appends, checkpoint
after the second. -/
theorem trim_bound_witness :
    (getHistory (addAll 1 [] (strOf "s")
        ([⟨strOf "user", strOf "a", 0⟩, ⟨strOf "user", strOf "b", 1⟩,
          ⟨strOf "user", strOf "c", 2⟩].take 2)) (strOf "s")).length ≤ 1 * 2 ∧
    (([⟨strOf "user", strOf "a", 0⟩, ⟨strOf "user", strOf "b", 1⟩,
       ⟨strOf "user", strOf "c", 2⟩] : List Turn).length > 1 * 2 →
      getHistory (addAll 1 [] (strOf "s")
        [⟨strOf "user", strOf "a", 0⟩, ⟨strOf "user", strOf "b", 1⟩,
         ⟨strOf "user", strOf "c", 2⟩]) (strOf "s") =
      takeLast (1 * 2)
        [⟨strOf "user", strOf "a", 0⟩, ⟨strOf "user", strOf "b", 1⟩,
         ⟨strOf "user", strOf "c", 2⟩]) :=
  trim_bound 1 (by decide) (strOf "s") [] rfl
    [⟨strOf "user", strOf "a", 0⟩, ⟨strOf "user", strOf "b", 1⟩,
     ⟨strOf "user", strOf "c", 2⟩] 2

/-! ## MemoryBank lemmas -/

theorem getUserMemory_save (m : MemoryStore) (u u' x : Str)
    (h : safeUid u' = safeUid u) :
    getUserMemory (saveUserMemory m u x) u' = pyStrip x := by
  simp only [getUserMemory, saveUserMemory, h, alistGet_set_self]
  split
  · next he =>
    simp only [List.isEmpty_iff] at he
    rw [he]
  · rfl

theorem getUserMemory_delete (m : MemoryStore) (u u' : Str)
    (h : safeUid u' = safeUid u) :
    getUserMemory (deleteUserMemory m u) u' = [] := by
  simp only [getUserMemory, deleteUserMemory, h, alistGet_erase_self]

/-- C9 — memory-key aliasing: the MemoryBank file-name sanitization
(replacing colon and slash by underscore) is not injective over
already-sanitized user ids; for the distinct user ids qq:123 and qq_123
(both fixed points of the Agent identity sanitization) get, save and
delete operate on the same record, so a save for one is read back by a
get for the other, and a delete keyed by one removes what the other
saved. -/
theorem memory_key_aliasing (m : MemoryStore) (x : Str) (hx : pyStrip x = x) :
    strOf "qq:123" ≠ strOf "qq_123" ∧
    safeUid (strOf "qq:123") = safeUid (strOf "qq_123") ∧
    sanitizeUid (strOf "qq:123") = strOf "qq:123" ∧
    sanitizeUid (strOf "qq_123") = strOf "qq_123" ∧
    getUserMemory (saveUserMemory m (strOf "qq:123") x) (strOf "qq_123") = x ∧
    getUserMemory (saveUserMemory m (strOf "qq_123") x) (strOf "qq:123") = x ∧
    getUserMemory (deleteUserMemory (saveUserMemory m (strOf "qq:123") x)
      (strOf "qq_123")) (strOf "qq:123") = [] := by
  refine ⟨by decide, by decide, by decide, by decide, ?_, ?_, ?_⟩
  · rw [getUserMemory_save _ _ _ _ (by decide), hx]
  · rw [getUserMemory_save _ _ _ _ (by decide), hx]
  · exact getUserMemory_delete _ _ _ (by decide)

/-- Witness for memory_key_aliasing on an empty store and a concrete
whitespace-free memory text. -/
theorem memory_key_aliasing_witness :
    strOf "qq:123" ≠ strOf "qq_123" ∧
    safeUid (strOf "qq:123") = safeUid (strOf "qq_123") ∧
    sanitizeUid (strOf "qq:123") = strOf "qq:123" ∧
    sanitizeUid (strOf "qq_123") = strOf "qq_123" ∧
    getUserMemory (saveUserMemory [] (strOf "qq:123") (strOf "likes cats"))
      (strOf "qq_123") = strOf "likes cats" ∧
    getUserMemory (saveUserMemory [] (strOf "qq_123") (strOf "likes cats"))
      (strOf "qq:123") = strOf "likes cats" ∧
    getUserMemory (deleteUserMemory (saveUserMemory [] (strOf "qq:123")
      (strOf "likes cats")) (strOf "qq_123")) (strOf "qq:123") = [] :=
  memory_key_aliasing [] (strOf "likes cats") (by decide)

/-! ## split and join lemmas -/

theorem hasChar_append (x : Char) (a b : Str) :
    hasChar x (a ++ b) = (hasChar x a || hasChar x b) := by
  induction a with
  | nil => simp [hasChar]
  | cons c cs ih => simp [hasChar, ih, Bool.or_assoc]

theorem splitOnChar_ne_nil (sep : Char) (l : Str) : splitOnChar sep l ≠ [] := by
  cases l with
  | nil => simp [splitOnChar]
  | cons c cs =>
    simp only [splitOnChar]
    cases hsp : splitOnChar sep cs with
    | nil => simp
    | cons h0 t =>
      by_cases hc : (c == sep) = true <;> simp [hc]

theorem splitOnChar_no_sep (sep : Char) (a : Str) (h : hasChar sep a = false) :
    splitOnChar sep a = [a] := by
  induction a with
  | nil => rfl
  | cons c cs ih =>
    simp only [hasChar, Bool.or_eq_false_iff] at h
    obtain ⟨h1, h2⟩ := h
    simp only [splitOnChar, ih h2]
    simp [h1]

theorem splitOnChar_sep_append (sep : Char) (a rest : Str)
    (h : hasChar sep a = false) :
    splitOnChar sep (a ++ sep :: rest) = a :: splitOnChar sep rest := by
  induction a with
  | nil =>
    simp only [List.nil_append, splitOnChar]
    cases hsp : splitOnChar sep rest with
    | nil => exact absurd hsp (splitOnChar_ne_nil sep rest)
    | cons h0 t => simp
  | cons c cs ih =>
    simp only [hasChar, Bool.or_eq_false_iff] at h
    obtain ⟨h1, h2⟩ := h
    simp only [List.cons_append, splitOnChar, List.append_eq]
    rw [ih h2]
    simp [h1]

theorem joinWith_cons_cons (sep : Char) (c : Char) (h : Str) (t : List Str) :
    joinWith sep ((c :: h) :: t) = c :: joinWith sep (h :: t) := by
  cases t <;> rfl

theorem joinWith_splitOnChar (sep : Char) (l : Str) :
    joinWith sep (splitOnChar sep l) = l := by
  induction l with
  | nil => rfl
  | cons c cs ih =>
    simp only [splitOnChar]
    cases hsp : splitOnChar sep cs with
    | nil => exact absurd hsp (splitOnChar_ne_nil sep cs)
    | cons h0 t =>
      rw [hsp] at ih
      by_cases hc : c = sep
      · subst hc
        simp only [beq_self_eq_true, if_true]
        show [] ++ c :: joinWith c (h0 :: t) = c :: cs
        rw [List.nil_append, ih]
      · have hcb : (c == sep) = false := by simp [hc]
        simp only [hcb, Bool.false_eq_true, if_false]
        rw [joinWith_cons_cons, ih]

/-- C8 — Callback session id parsing: the callback endpoint accepts the
colon form platform:messageType:chatId and the legacy underscore form
platform_messageType_chatId; for ids built from fields free of the
delimiters the two forms parse to the same platform, message-type,
chat-id triple (the chat id may even contain further underscores), and
an id containing neither delimiter yields a structured error value,
never an exception. -/
theorem callback_session_id_parsing (p m c s : Str)
    (hp1 : hasChar ':' p = false) (hp2 : hasChar '_' p = false)
    (hm1 : hasChar ':' m = false) (hm2 : hasChar '_' m = false)
    (hc1 : hasChar ':' c = false)
    (hs1 : hasChar ':' s = false) (hs2 : hasChar '_' s = false) :
    parseCallbackSessionId (p ++ (':' :: (m ++ (':' :: c)))) = .ok ⟨p, m, c⟩ ∧
    parseCallbackSessionId (p ++ ('_' :: (m ++ ('_' :: c)))) = .ok ⟨p, m, c⟩ ∧
    parseCallbackSessionId s = .error (strOf "Unknown session format") := by
  refine ⟨?_, ?_, ?_⟩
  · have hsplit : splitOnChar ':' (p ++ (':' :: (m ++ (':' :: c)))) = [p, m, c] := by
      rw [splitOnChar_sep_append _ _ _ hp1, splitOnChar_sep_append _ _ _ hm1,
        splitOnChar_no_sep _ _ hc1]
    have hhas : hasChar ':' (p ++ (':' :: (m ++ (':' :: c)))) = true := by
      rw [hasChar_append]
      simp [hasChar]
    simp only [parseCallbackSessionId, hhas, hsplit]
    simp [joinWith]
  · have hno : hasChar ':' (p ++ ('_' :: (m ++ ('_' :: c)))) = false := by
      rw [hasChar_append]
      simp only [hasChar, hasChar_append]
      simp [hp1, hm1, hc1]
    have hhas : hasChar '_' (p ++ ('_' :: (m ++ ('_' :: c)))) = true := by
      rw [hasChar_append]
      simp [hasChar]
    have hsplit : splitOnChar '_' (p ++ ('_' :: (m ++ ('_' :: c)))) =
        p :: m :: splitOnChar '_' c := by
      rw [splitOnChar_sep_append _ _ _ hp2, splitOnChar_sep_append _ _ _ hm2]
    cases hsp : splitOnChar '_' c with
    | nil => exact absurd hsp (splitOnChar_ne_nil _ _)
    | cons h0 t =>
      have hjoin : joinWith '_' (h0 :: t) = c := by rw [← hsp, joinWith_splitOnChar]
      rw [hsp] at hsplit
      simp only [parseCallbackSessionId, hno, hhas, hsplit]
      simp [hjoin]
  · simp [parseCallbackSessionId, hs1, hs2]

/-- Witness for callback_session_id_parsing on the claimed example
qq:private:12345 versus qq_private_12345. -/
theorem callback_session_id_parsing_witness :
    parseCallbackSessionId (strOf "qq" ++ (':' :: (strOf "private" ++ (':' :: strOf "12345")))) =
      .ok ⟨strOf "qq", strOf "private", strOf "12345"⟩ ∧
    parseCallbackSessionId (strOf "qq" ++ ('_' :: (strOf "private" ++ ('_' :: strOf "12345")))) =
      .ok ⟨strOf "qq", strOf "private", strOf "12345"⟩ ∧
    parseCallbackSessionId (strOf "nodelimiter") = .error (strOf "Unknown session format") :=
  callback_session_id_parsing (strOf "qq") (strOf "private") (strOf "12345")
    (strOf "nodelimiter") (by decide) (by decide) (by decide) (by decide)
    (by decide) (by decide) (by decide)

/-! ## Inline command grammar -/

/-- C3 counterexample: the claim asserts that the Clawdbot keyword is
matched case-insensitively, so that a lower-case marker is detected;
but the Clawdbot regex is compiled without re.IGNORECASE, and the
lower-case marker from the claim is not detected at all, while the same
text with the canonical casing is. -/
theorem clawdbot_marker_case_sensitive :
    scanClawdbot (strOf "...[clawdbot: build a snake game]...") = none ∧
    scanClawdbot (strOf "...[Clawdbot: build a snake game]...") =
      some (strOf "build a snake game") := by
  constructor <;> decide

/-- C3 amended — Inline command grammar: both patterns capture content
up to the closing bracket, possibly spanning multiple lines, the claimed
example extractions hold, and text with neither marker matches neither
pattern; the Search keyword is case-insensitive (any casing such as
`[search:` or `[SEARCH:` is detected), but the Clawdbot keyword is
case-sensitive, so only the exact casing `[Clawdbot:` is detected. -/
theorem inline_command_grammar :
    scanSearch (strOf "...[Search: weather in Paris]...") =
      some (strOf "weather in Paris") ∧
    scanSearch (strOf "...[search: weather in Paris]...") =
      some (strOf "weather in Paris") ∧
    scanSearch (strOf "...[SEARCH: weather in Paris]...") =
      some (strOf "weather in Paris") ∧
    scanSearch (strOf "ask [SeArCh:\n weather\nin Paris ] now") =
      some (strOf "weather\nin Paris") ∧
    scanClawdbot (strOf "...[Clawdbot: build a snake game]...") =
      some (strOf "build a snake game") ∧
    scanClawdbot (strOf "do [Clawdbot: build\na snake game] soon") =
      some (strOf "build\na snake game") ∧
    scanClawdbot (strOf "...[clawdbot: build a snake game]...") = none ∧
    scanSearch (strOf "plain text with no markers") = none ∧
    scanClawdbot (strOf "plain text with no markers") = none := by
  refine ⟨?_, ?_, ?_, ?_, ?_, ?_, ?_, ?_, ?_⟩ <;> decide

/-! ## Orchestrator theorems -/

theorem finishMessage_success (cfg : AgentCfg) (st : AgentState)
    (sessionId realUserId message : Str) (mode : AgentMode)
    (responseText targetSessionId : Str) (evs : List Ev) :
    (finishMessage cfg st sessionId realUserId message mode responseText
      targetSessionId evs).1.success = true ∧
    (finishMessage cfg st sessionId realUserId message mode responseText
      targetSessionId evs).1.error = none :=
  ⟨rfl, rfl⟩

/-- C4 — Failure semantics: process_message is a total function into the
result dictionary; for every input and every behaviour of the fallible
collaborators, the returned dictionary either has success true with no
error field, or has success false, the apologetic text built from the
error, and the error recorded — an oracle failure anywhere in the
pipeline is converted, never propagated. -/
theorem failure_semantics (cfg : AgentCfg) (st : AgentState)
    (userId chatId message : Str) (cb : Option Str) :
    ((processMessage cfg st userId chatId message cb).1.success = true ∧
     (processMessage cfg st userId chatId message cb).1.error = none) ∨
    (∃ e, (processMessage cfg st userId chatId message cb).1.success = false ∧
      (processMessage cfg st userId chatId message cb).1.text = apologyText e ∧
      (processMessage cfg st userId chatId message cb).1.error = some e) := by
  simp only [processMessage]
  split
  · left
    exact ⟨rfl, rfl⟩
  · split
    · next e heq =>
      right
      exact ⟨e, rfl, rfl, rfl⟩
    · next r1 heq =>
      split
      · next q hq =>
        split
        · next e heq2 =>
          right
          exact ⟨e, rfl, rfl, rfl⟩
        · next res heq2 =>
          split
          · next e heq3 =>
            right
            exact ⟨e, rfl, rfl, rfl⟩
          · next r2 heq3 =>
            left
            exact finishMessage_success ..
      · next hq =>
        left
        exact finishMessage_success ..

/-- C5 — Reset: when the trimmed message equals one of the fixed reset
keywords (the list contains /reset, /clear and the two localized
equivalents 重置 and 清除记忆), process_message clears the session,
deletes the user memory record, performs no LLM call nor any other
side effect (the event list is empty), and returns the canned
confirmation with success true; afterwards the session history is empty
and the user memory reads back empty. -/
theorem reset_semantics (cfg : AgentCfg) (st : AgentState)
    (userId chatId message : Str) (cb : Option Str)
    (h : pyStrip message ∈ resetKeywords) :
    processMessage cfg st userId chatId message cb =
      ({ success := true, text := resetText, mode := strOf "conversation", error := none },
       { sessions := clearSession st.sessions chatId,
         memories := deleteUserMemory st.memories (realUserIdOf userId) }, []) ∧
    getHistory (clearSession st.sessions chatId) chatId = [] ∧
    getUserMemory (deleteUserMemory st.memories (realUserIdOf userId))
      (realUserIdOf userId) = [] ∧
    strOf "/reset" ∈ resetKeywords ∧ strOf "/clear" ∈ resetKeywords ∧
    strOf "重置" ∈ resetKeywords ∧ strOf "清除记忆" ∈ resetKeywords := by
  refine ⟨?_, ?_, ?_, by decide, by decide, by decide, by decide⟩
  · simp only [processMessage]
    rw [if_pos h]
  · simp [getHistory, clearSession, alistGet_erase_self]
  · exact getUserMemory_delete _ _ _ rfl

/-- Witness for reset_semantics: a whitespace-padded /reset message on a
fresh state. -/
theorem reset_semantics_witness :
    processMessage sampleCfg ⟨[], []⟩ (strOf "qq:9") (strOf "qq:user:9:20260214")
        (strOf " /reset ") none =
      ({ success := true, text := resetText, mode := strOf "conversation", error := none },
       { sessions := clearSession ([] : SessionStore) (strOf "qq:user:9:20260214"),
         memories := deleteUserMemory ([] : MemoryStore) (realUserIdOf (strOf "qq:9")) }, []) ∧
    getHistory (clearSession ([] : SessionStore) (strOf "qq:user:9:20260214"))
      (strOf "qq:user:9:20260214") = [] ∧
    getUserMemory (deleteUserMemory ([] : MemoryStore) (realUserIdOf (strOf "qq:9")))
      (realUserIdOf (strOf "qq:9")) = [] ∧
    strOf "/reset" ∈ resetKeywords ∧ strOf "/clear" ∈ resetKeywords ∧
    strOf "重置" ∈ resetKeywords ∧ strOf "清除记忆" ∈ resetKeywords :=
  reset_semantics sampleCfg ⟨[], []⟩ (strOf "qq:9") (strOf "qq:user:9:20260214")
    (strOf " /reset ") none (by decide)

theorem searchCount_append (a b : List Ev) :
    searchCount (a ++ b) = searchCount a + searchCount b := by
  simp [searchCount, List.countP_append]

theorem finishMessage_clawdbot (cfg : AgentCfg) (st : AgentState)
    (sessionId realUserId message : Str) (mode : AgentMode)
    (rt target : Str) (evs : List Ev) (task : Str)
    (hcb : scanClawdbot rt = some task)
    (hc1 : cfg.clawdbotConfigured = true) (hc2 : cfg.notifyConfigured = true) :
    (finishMessage cfg st sessionId realUserId message mode rt target evs).1.text =
      ackText task ∧
    searchCount (finishMessage cfg st sessionId realUserId message mode rt
      target evs).2.2 = searchCount evs ∧
    Ev.clawdbotSpawn task target ∈
      (finishMessage cfg st sessionId realUserId message mode rt target evs).2.2 := by
  refine ⟨?_, ?_, ?_⟩
  · simp [finishMessage, hcb, hc1, hc2]
  · simp only [finishMessage, hcb, hc1, hc2, Bool.and_self, if_true]
    split <;> simp [searchCount_append, searchCount]
  · simp only [finishMessage, hcb, hc1, hc2, Bool.and_self, if_true]
    split <;> simp

/-- C6 — Single search round-trip with tool re-check: when the first LLM
response carries a search marker, the search succeeds, and the second
LLM response carries both a further search marker and a Clawdbot marker
while tool and callback are configured, the call runs exactly one web
search (the marker in the second response triggers no further search),
the deferred-tool branch still fires on the second response, and the
returned text is the acknowledgement. -/
theorem single_search_roundtrip (cfg : AgentCfg) (st : AgentState)
    (userId chatId message : Str) (cb : Option Str)
    (r1 q res r2 q2 task : Str)
    (hreset : pyStrip message ∉ resetKeywords)
    (h1 : cfg.llm (assembledPrompt cfg st userId chatId message) = .ok r1)
    (hs1 : scanSearch r1 = some q)
    (hsr : cfg.searchTool q = .ok res)
    (h2 : cfg.llm (assembledPrompt cfg st userId chatId message ++
      [⟨strOf "assistant", r1⟩, ⟨strOf "user", observationText q res⟩]) = .ok r2)
    (hs2 : scanSearch r2 = some q2)
    (hcb : scanClawdbot r2 = some task)
    (hc1 : cfg.clawdbotConfigured = true) (hc2 : cfg.notifyConfigured = true) :
    searchCount (processMessage cfg st userId chatId message cb).2.2 = 1 ∧
    Ev.clawdbotSpawn task (cb.getD chatId) ∈
      (processMessage cfg st userId chatId message cb).2.2 ∧
    (processMessage cfg st userId chatId message cb).1.text = ackText task ∧
    (processMessage cfg st userId chatId message cb).1.success = true := by
  simp only [processMessage, hreset, if_false, h1, hs1, hsr, h2, hc2, if_true]
  refine ⟨?_, ?_, ?_, ?_⟩
  · rw [(finishMessage_clawdbot _ _ _ _ _ _ _ _ _ _ hcb hc1 hc2).2.1]
    simp [searchCount]
  · exact (finishMessage_clawdbot _ _ _ _ _ _ _ _ _ _ hcb hc1 hc2).2.2
  · exact (finishMessage_clawdbot _ _ _ _ _ _ _ _ _ _ hcb hc1 hc2).1
  · exact (finishMessage_success ..).1

/-- Witness for single_search_roundtrip on concrete oracles. -/
theorem single_search_roundtrip_witness :
    searchCount (processMessage searchWitnessCfg ⟨[], []⟩ (strOf "qq:7")
      (strOf "qq:user:7:20260214") (strOf "hello cats")
      (some (strOf "qq:private:7"))).2.2 = 1 ∧
    Ev.clawdbotSpawn (strOf "build a snake game")
        ((some (strOf "qq:private:7")).getD (strOf "qq:user:7:20260214")) ∈
      (processMessage searchWitnessCfg ⟨[], []⟩ (strOf "qq:7")
        (strOf "qq:user:7:20260214") (strOf "hello cats")
        (some (strOf "qq:private:7"))).2.2 ∧
    (processMessage searchWitnessCfg ⟨[], []⟩ (strOf "qq:7")
      (strOf "qq:user:7:20260214") (strOf "hello cats")
      (some (strOf "qq:private:7"))).1.text =
        ackText (strOf "build a snake game") ∧
    (processMessage searchWitnessCfg ⟨[], []⟩ (strOf "qq:7")
      (strOf "qq:user:7:20260214") (strOf "hello cats")
      (some (strOf "qq:private:7"))).1.success = true :=
  single_search_roundtrip searchWitnessCfg ⟨[], []⟩ (strOf "qq:7")
    (strOf "qq:user:7:20260214") (strOf "hello cats") (some (strOf "qq:private:7"))
    (strOf "[Search: cats]") (strOf "cats") (strOf "result text")
    (strOf "see [Search: again] and [Clawdbot: build a snake game] okay")
    (strOf "again") (strOf "build a snake game")
    (by decide) (by rfl) (by decide) (by rfl) (by rfl) (by decide) (by decide)
    rfl rfl

theorem length_getHistory_addMessage (m : Nat) (hm : 0 < m) (store : SessionStore)
    (sid r c : Str) (n : Nat) :
    (getHistory (addMessage m store sid r c n) sid).length =
      min (m * 2) ((getHistory store sid).length + 1) := by
  rw [getHistory_addMessage, trimAppend_eq_takeLast m hm, length_takeLast]
  simp

theorem finishMessage_saturated (cfg : AgentCfg) (st : AgentState)
    (sessionId realUserId message : Str) (mode : AgentMode)
    (rt target : Str) (evs : List Ev)
    (hmax : cfg.maxHistory = 10) (hint : cfg.triggerInterval = 10)
    (hlen : (getHistory st.sessions sessionId).length = 20) :
    (getHistory (finishMessage cfg st sessionId realUserId message mode rt
      target evs).2.1.sessions sessionId).length = 20 ∧
    Ev.extractSpawn realUserId ∈
      (finishMessage cfg st sessionId realUserId message mode rt target evs).2.2 := by
  have hm : 0 < cfg.maxHistory := by omega
  have l1 : (getHistory (addMessage cfg.maxHistory st.sessions sessionId
      (strOf "user") message cfg.now) sessionId).length = 20 := by
    rw [length_getHistory_addMessage cfg.maxHistory hm, hlen, hmax]
    decide
  have l2 : ∀ txt, (getHistory (addMessage cfg.maxHistory
      (addMessage cfg.maxHistory st.sessions sessionId (strOf "user") message cfg.now)
      sessionId (strOf "assistant") txt cfg.now) sessionId).length = 20 := by
    intro txt
    rw [length_getHistory_addMessage cfg.maxHistory hm, l1, hmax]
    decide
  have hst : shouldTrigger 10 20 = true := by decide
  simp only [finishMessage, addUserMessage, addAssistantMessage, hint, l2, hst, if_true]
  exact ⟨trivial, by simp⟩

/-- C10 — saturation triggers extraction on every call: with the default
maxHistory 10 and trigger interval 10, once the session history has
reached the trim cap of twenty turns, every subsequent successful
non-reset process_message call leaves the history length at exactly
twenty, should_trigger holds at twenty, and the memory-extraction task
is spawned on that very call. -/
theorem saturation_triggers_extraction (cfg : AgentCfg) (st : AgentState)
    (userId chatId message : Str) (cb : Option Str)
    (hmax : cfg.maxHistory = 10) (hint : cfg.triggerInterval = 10)
    (hlen : (getHistory st.sessions chatId).length = 20)
    (hreset : pyStrip message ∉ resetKeywords)
    (hsucc : (processMessage cfg st userId chatId message cb).1.success = true) :
    (getHistory (processMessage cfg st userId chatId message cb).2.1.sessions
      chatId).length = 20 ∧
    Ev.extractSpawn (realUserIdOf userId) ∈
      (processMessage cfg st userId chatId message cb).2.2 ∧
    shouldTrigger 10 20 = true := by
  have hm : 0 < cfg.maxHistory := by omega
  simp only [processMessage] at hsucc ⊢
  rw [if_neg hreset] at hsucc ⊢
  rcases hllm : cfg.llm (assembledPrompt cfg st userId chatId message) with e | r1
  · rw [hllm] at hsucc
    simp [errorResult] at hsucc
  · rw [hllm] at hsucc
    dsimp only at hsucc ⊢
    rcases hq : scanSearch r1 with _ | q
    · rw [hq] at hsucc
      dsimp only at hsucc ⊢
      exact ⟨(finishMessage_saturated _ _ _ _ _ _ _ _ _ hmax hint hlen).1,
        (finishMessage_saturated _ _ _ _ _ _ _ _ _ hmax hint hlen).2, by decide⟩
    · rw [hq] at hsucc
      dsimp only at hsucc ⊢
      rcases hsr : cfg.searchTool q with e | res
      · rw [hsr] at hsucc
        simp [errorResult] at hsucc
      · rw [hsr] at hsucc
        dsimp only at hsucc ⊢
        rcases h2 : cfg.llm (assembledPrompt cfg st userId chatId message ++
            [⟨strOf "assistant", r1⟩, ⟨strOf "user", observationText q res⟩]) with e | r2
        · rw [h2] at hsucc
          simp [errorResult] at hsucc
        · try rw [h2] at hsucc
          try rw [h2]
          try dsimp only at hsucc
          try dsimp only
          have hlen2 : (getHistory (addUserMessage cfg.maxHistory
              (addAssistantMessage cfg.maxHistory st.sessions chatId r1 cfg.now)
              chatId (observationText q res) cfg.now) chatId).length = 20 := by
            rw [addUserMessage, addAssistantMessage,
              length_getHistory_addMessage cfg.maxHistory hm,
              length_getHistory_addMessage cfg.maxHistory hm, hlen, hmax]
            decide
          exact ⟨(finishMessage_saturated _ _ _ _ _ _ _ _ _ hmax hint hlen2).1,
            (finishMessage_saturated _ _ _ _ _ _ _ _ _ hmax hint hlen2).2, by decide⟩

/-- Witness for saturation_triggers_extraction on a concrete saturated
state. -/
theorem saturation_triggers_extraction_witness :
    (getHistory (processMessage sampleCfg saturatedState (strOf "qq:7")
      (strOf "qq:user:7:20260214") (strOf "hi") none).2.1.sessions
      (strOf "qq:user:7:20260214")).length = 20 ∧
    Ev.extractSpawn (realUserIdOf (strOf "qq:7")) ∈
      (processMessage sampleCfg saturatedState (strOf "qq:7")
        (strOf "qq:user:7:20260214") (strOf "hi") none).2.2 ∧
    shouldTrigger 10 20 = true :=
  saturation_triggers_extraction sampleCfg saturatedState (strOf "qq:7")
    (strOf "qq:user:7:20260214") (strOf "hi") none rfl rfl (by decide) (by decide)
    (by decide)

/-! ## User isolation -/

theorem getHistory_applyOp (m : Nat) (st : AgentState) (op : StoreOp) (sid : Str) :
    getHistory (applyOp m st op).sessions sid =
      sessionStep m sid (getHistory st.sessions sid) op := by
  cases op with
  | addTurn sid' r c n =>
    by_cases h : sid' = sid
    · subst h
      simp [applyOp, sessionStep, getHistory_addMessage]
    · simp [applyOp, sessionStep, h,
        getHistory_addMessage_ne m st.sessions sid' sid r c n (Ne.symm h)]
  | clear sid' =>
    by_cases h : sid' = sid
    · subst h
      simp [applyOp, sessionStep, clearSession, getHistory, alistGet_erase_self]
    · simp [applyOp, sessionStep, clearSession, getHistory, h,
        alistGet_erase_ne st.sessions sid' sid (Ne.symm h)]
  | memSave u content => rfl
  | memDelete u => rfl

theorem memRaw_applyOp (m : Nat) (st : AgentState) (op : StoreOp) (k : Str) :
    alistGet (applyOp m st op).memories k = memStep k (alistGet st.memories k) op := by
  cases op with
  | addTurn sid' r c n => rfl
  | clear sid' => rfl
  | memSave u content =>
    by_cases h : safeUid u = k
    · simp [applyOp, memStep, saveUserMemory, h, alistGet_set_self]
    · simp [applyOp, memStep, saveUserMemory, h,
        alistGet_set_ne st.memories (safeUid u) k content (Ne.symm h)]
  | memDelete u =>
    by_cases h : safeUid u = k
    · simp [applyOp, memStep, deleteUserMemory, h, alistGet_erase_self]
    · simp [applyOp, memStep, deleteUserMemory, h,
        alistGet_erase_ne st.memories (safeUid u) k (Ne.symm h)]

theorem getHistory_applyOps (m : Nat) (st : AgentState) (ops : List StoreOp) (sid : Str) :
    getHistory (applyOps m st ops).sessions sid =
      ops.foldl (sessionStep m sid) (getHistory st.sessions sid) := by
  induction ops generalizing st with
  | nil => rfl
  | cons op ops ih =>
    show getHistory (applyOps m (applyOp m st op) ops).sessions sid = _
    rw [ih, getHistory_applyOp]
    rfl

theorem memRaw_applyOps (m : Nat) (st : AgentState) (ops : List StoreOp) (k : Str) :
    alistGet (applyOps m st ops).memories k =
      ops.foldl (memStep k) (alistGet st.memories k) := by
  induction ops generalizing st with
  | nil => rfl
  | cons op ops ih =>
    show alistGet (applyOps m (applyOp m st op) ops).memories k = _
    rw [ih, memRaw_applyOp]
    rfl

theorem sessionStep_other (m : Nat) (s' : Str) (h : List Turn) (op : StoreOp)
    (sid k : Str) (hop : opsFor sid k op) (hne : sid ≠ s') :
    sessionStep m s' h op = h := by
  obtain ⟨h1, _⟩ := hop
  cases op with
  | addTurn sid' r c n =>
    simp only [opSessionId, reduceCtorEq, Option.some.injEq, false_or] at h1
    simp [sessionStep, h1, hne]
  | clear sid' =>
    simp only [opSessionId, reduceCtorEq, Option.some.injEq, false_or] at h1
    simp [sessionStep, h1, hne]
  | memSave u content => rfl
  | memDelete u => rfl

theorem memStep_other (k' : Str) (v : Option Str) (op : StoreOp)
    (sid k : Str) (hop : opsFor sid k op) (hne : k ≠ k') :
    memStep k' v op = v := by
  obtain ⟨_, h2⟩ := hop
  cases op with
  | addTurn sid' r c n => rfl
  | clear sid' => rfl
  | memSave u content =>
    simp only [opMemKey, reduceCtorEq, Option.some.injEq, false_or] at h2
    simp [memStep, h2, hne]
  | memDelete u =>
    simp only [opMemKey, reduceCtorEq, Option.some.injEq, false_or] at h2
    simp [memStep, h2, hne]

theorem interleaving_symm {t a b : List StoreOp} (h : Interleaving t a b) :
    Interleaving t b a := by
  induction h with
  | nil => exact .nil
  | left op _ ih => exact .right op ih
  | right op _ ih => exact .left op ih

theorem foldl_interleaving {α : Type} (f : α → StoreOp → α) :
    ∀ {t a b : List StoreOp}, Interleaving t a b →
      (∀ op ∈ b, ∀ x, f x op = x) → ∀ x : α, t.foldl f x = a.foldl f x := by
  intro t a b hI
  induction hI with
  | nil =>
    intro _ _
    rfl
  | left op hI ih =>
    intro hid x
    rw [List.foldl_cons, List.foldl_cons]
    exact ih hid (f x op)
  | right op hI ih =>
    intro hid x
    rw [List.foldl_cons, hid op (List.mem_cons_self _ _) x]
    exact ih (fun o ho y => hid o (List.mem_cons_of_mem _ ho) y) x

theorem finishMessage_frame (cfg : AgentCfg) (st : AgentState)
    (sessionId realUserId message : Str) (mode : AgentMode)
    (rt target : Str) (evs : List Ev) (s : Str) (hs : s ≠ sessionId) :
    getHistory (finishMessage cfg st sessionId realUserId message mode rt
      target evs).2.1.sessions s = getHistory st.sessions s ∧
    (finishMessage cfg st sessionId realUserId message mode rt
      target evs).2.1.memories = st.memories := by
  constructor
  · simp only [finishMessage, addUserMessage, addAssistantMessage]
    rw [getHistory_addMessage_ne _ _ _ _ _ _ _ hs,
      getHistory_addMessage_ne _ _ _ _ _ _ _ hs]
  · rfl

/-- Justification of the operation-trace model: a process_message call
for user `userId` and session `chatId` leaves every other session
history and every other memory file untouched — its mutations are keyed
exclusively by its own session id and its own sanitized memory key. -/
theorem processMessage_frame (cfg : AgentCfg) (st : AgentState)
    (userId chatId message : Str) (cb : Option Str) (s k : Str)
    (hs : s ≠ chatId) (hk : k ≠ safeUid (realUserIdOf userId)) :
    getHistory (processMessage cfg st userId chatId message cb).2.1.sessions s =
      getHistory st.sessions s ∧
    alistGet (processMessage cfg st userId chatId message cb).2.1.memories k =
      alistGet st.memories k := by
  simp only [processMessage, addUserMessage, addAssistantMessage]
  split
  · constructor
    · simp [getHistory, clearSession, alistGet_erase_ne _ _ _ hs]
    · simp [deleteUserMemory, alistGet_erase_ne _ _ _ hk]
  · split
    · exact ⟨rfl, rfl⟩
    · split
      · split
        · exact ⟨rfl, rfl⟩
        · split
          · constructor
            · rw [getHistory_addMessage_ne _ _ _ _ _ _ _ hs,
                getHistory_addMessage_ne _ _ _ _ _ _ _ hs]
            · rfl
          · constructor
            · rw [(finishMessage_frame _ _ _ _ _ _ _ _ _ _ hs).1,
                getHistory_addMessage_ne _ _ _ _ _ _ _ hs,
                getHistory_addMessage_ne _ _ _ _ _ _ _ hs]
            · rw [(finishMessage_frame _ _ _ _ _ _ _ _ _ _ hs).2]
      · constructor
        · rw [(finishMessage_frame _ _ _ _ _ _ _ _ _ _ hs).1]
        · rw [(finishMessage_frame _ _ _ _ _ _ _ _ _ _ hs).2]

/-- C1 counterexample: the claim quantifies over arbitrary pairs of
distinct users, but for the distinct users qq:123 and qq_123 a memory
write performed on behalf of the first lands in the very record the
second one reads — their memory file keys collide — so an operation for
one user does leak into the MemoryRecord of a different user. -/
theorem user_isolation_counterexample :
    (strOf "qq:123" ≠ strOf "qq_123") ∧
    getUserMemory (applyOps 10 ⟨[], []⟩
        [StoreOp.memSave (strOf "qq:123") (strOf "U1 secret")]).memories
      (strOf "qq_123") = strOf "U1 secret" := by
  constructor <;> decide

/-- C1 amended — user isolation up to memory-key aliasing: for two
operation traces interleaved arbitrarily, one keyed by session s1 and
memory file key k1, the other by session s2 and memory file key k2,
with s1 distinct from s2, the final history of each session equals what
that session's own trace alone produces — unconditionally, also for
users whose memory file keys collide — and, provided k1 is distinct
from k2, the final memory record of each user likewise equals what that
user's own trace alone produces.  The proviso on the file keys is
necessary for the memory half and only there: sanitization aliases
distinct user ids such as qq:123 and qq_123 onto one file, as the
counterexample shows. -/
theorem user_isolation (m : Nat) (st : AgentState) (t a b : List StoreOp)
    (s1 s2 k1 k2 u1 u2 : Str)
    (hI : Interleaving t a b)
    (ha : ∀ op ∈ a, opsFor s1 k1 op) (hb : ∀ op ∈ b, opsFor s2 k2 op)
    (hs : s1 ≠ s2)
    (hu1 : safeUid u1 = k1) (hu2 : safeUid u2 = k2) :
    getHistory (applyOps m st t).sessions s1 =
      getHistory (applyOps m st a).sessions s1 ∧
    getHistory (applyOps m st t).sessions s2 =
      getHistory (applyOps m st b).sessions s2 ∧
    (k1 ≠ k2 →
      getUserMemory (applyOps m st t).memories u1 =
        getUserMemory (applyOps m st a).memories u1 ∧
      getUserMemory (applyOps m st t).memories u2 =
        getUserMemory (applyOps m st b).memories u2) := by
  refine ⟨?_, ?_, fun hk => ⟨?_, ?_⟩⟩
  · rw [getHistory_applyOps, getHistory_applyOps]
    exact foldl_interleaving _ hI
      (fun op ho x => sessionStep_other m s1 x op s2 k2 (hb op ho) (Ne.symm hs)) _
  · rw [getHistory_applyOps, getHistory_applyOps]
    exact foldl_interleaving _ (interleaving_symm hI)
      (fun op ho x => sessionStep_other m s2 x op s1 k1 (ha op ho) hs) _
  · have hraw : alistGet (applyOps m st t).memories (safeUid u1) =
        alistGet (applyOps m st a).memories (safeUid u1) := by
      rw [memRaw_applyOps, memRaw_applyOps, hu1]
      exact foldl_interleaving _ hI
        (fun op ho v => memStep_other k1 v op s2 k2 (hb op ho) (Ne.symm hk)) _
    simp only [getUserMemory, hraw]
  · have hraw : alistGet (applyOps m st t).memories (safeUid u2) =
        alistGet (applyOps m st b).memories (safeUid u2) := by
      rw [memRaw_applyOps, memRaw_applyOps, hu2]
      exact foldl_interleaving _ (interleaving_symm hI)
        (fun op ho v => memStep_other k2 v op s1 k1 (ha op ho) hk) _
    simp only [getUserMemory, hraw]

/-- Witness for user_isolation: two fully alternated interleavings of
two-operation traces.  The first instantiation uses the aliasing pair
qq:123 and qq_123, whose memory file keys coincide, and obtains their
history isolation; the second uses users with distinct memory file keys
and obtains their memory-record isolation, discharging the inner
key-distinctness hypothesis. -/
theorem user_isolation_witness :
    (getHistory (applyOps 10 ⟨[], []⟩
        [StoreOp.addTurn (strOf "s1") (strOf "user") (strOf "A1") 0,
         StoreOp.addTurn (strOf "s2") (strOf "user") (strOf "B1") 1,
         StoreOp.memSave (strOf "qq:123") (strOf "m1"),
         StoreOp.memSave (strOf "qq_123") (strOf "m2")]).sessions (strOf "s1") =
      getHistory (applyOps 10 ⟨[], []⟩
        [StoreOp.addTurn (strOf "s1") (strOf "user") (strOf "A1") 0,
         StoreOp.memSave (strOf "qq:123") (strOf "m1")]).sessions (strOf "s1")) ∧
    (getHistory (applyOps 10 ⟨[], []⟩
        [StoreOp.addTurn (strOf "s1") (strOf "user") (strOf "A1") 0,
         StoreOp.addTurn (strOf "s2") (strOf "user") (strOf "B1") 1,
         StoreOp.memSave (strOf "qq:123") (strOf "m1"),
         StoreOp.memSave (strOf "qq_123") (strOf "m2")]).sessions (strOf "s2") =
      getHistory (applyOps 10 ⟨[], []⟩
        [StoreOp.addTurn (strOf "s2") (strOf "user") (strOf "B1") 1,
         StoreOp.memSave (strOf "qq_123") (strOf "m2")]).sessions (strOf "s2")) ∧
    (getUserMemory (applyOps 10 ⟨[], []⟩
        [StoreOp.addTurn (strOf "s1") (strOf "user") (strOf "A1") 0,
         StoreOp.addTurn (strOf "s2") (strOf "user") (strOf "B1") 1,
         StoreOp.memSave (strOf "u:1") (strOf "m1"),
         StoreOp.memDelete (strOf "u:2")]).memories (strOf "u:1") =
      getUserMemory (applyOps 10 ⟨[], []⟩
        [StoreOp.addTurn (strOf "s1") (strOf "user") (strOf "A1") 0,
         StoreOp.memSave (strOf "u:1") (strOf "m1")]).memories (strOf "u:1")) ∧
    (getUserMemory (applyOps 10 ⟨[], []⟩
        [StoreOp.addTurn (strOf "s1") (strOf "user") (strOf "A1") 0,
         StoreOp.addTurn (strOf "s2") (strOf "user") (strOf "B1") 1,
         StoreOp.memSave (strOf "u:1") (strOf "m1"),
         StoreOp.memDelete (strOf "u:2")]).memories (strOf "u:2") =
      getUserMemory (applyOps 10 ⟨[], []⟩
        [StoreOp.addTurn (strOf "s2") (strOf "user") (strOf "B1") 1,
         StoreOp.memDelete (strOf "u:2")]).memories (strOf "u:2")) :=
  ⟨(user_isolation 10 ⟨[], []⟩
      [StoreOp.addTurn (strOf "s1") (strOf "user") (strOf "A1") 0,
       StoreOp.addTurn (strOf "s2") (strOf "user") (strOf "B1") 1,
       StoreOp.memSave (strOf "qq:123") (strOf "m1"),
       StoreOp.memSave (strOf "qq_123") (strOf "m2")]
      [StoreOp.addTurn (strOf "s1") (strOf "user") (strOf "A1") 0,
       StoreOp.memSave (strOf "qq:123") (strOf "m1")]
      [StoreOp.addTurn (strOf "s2") (strOf "user") (strOf "B1") 1,
       StoreOp.memSave (strOf "qq_123") (strOf "m2")]
      (strOf "s1") (strOf "s2") (strOf "qq_123") (strOf "qq_123")
      (strOf "qq:123") (strOf "qq_123")
      (.left _ (.right _ (.left _ (.right _ .nil))))
      (by decide) (by decide) (by decide) (by decide) (by decide)).1,
   (user_isolation 10 ⟨[], []⟩
      [StoreOp.addTurn (strOf "s1") (strOf "user") (strOf "A1") 0,
       StoreOp.addTurn (strOf "s2") (strOf "user") (strOf "B1") 1,
       StoreOp.memSave (strOf "qq:123") (strOf "m1"),
       StoreOp.memSave (strOf "qq_123") (strOf "m2")]
      [StoreOp.addTurn (strOf "s1") (strOf "user") (strOf "A1") 0,
       StoreOp.memSave (strOf "qq:123") (strOf "m1")]
      [StoreOp.addTurn (strOf "s2") (strOf "user") (strOf "B1") 1,
       StoreOp.memSave (strOf "qq_123") (strOf "m2")]
      (strOf "s1") (strOf "s2") (strOf "qq_123") (strOf "qq_123")
      (strOf "qq:123") (strOf "qq_123")
      (.left _ (.right _ (.left _ (.right _ .nil))))
      (by decide) (by decide) (by decide) (by decide) (by decide)).2.1,
   ((user_isolation 10 ⟨[], []⟩
      [StoreOp.addTurn (strOf "s1") (strOf "user") (strOf "A1") 0,
       StoreOp.addTurn (strOf "s2") (strOf "user") (strOf "B1") 1,
       StoreOp.memSave (strOf "u:1") (strOf "m1"),
       StoreOp.memDelete (strOf "u:2")]
      [StoreOp.addTurn (strOf "s1") (strOf "user") (strOf "A1") 0,
       StoreOp.memSave (strOf "u:1") (strOf "m1")]
      [StoreOp.addTurn (strOf "s2") (strOf "user") (strOf "B1") 1,
       StoreOp.memDelete (strOf "u:2")]
      (strOf "s1") (strOf "s2") (strOf "u_1") (strOf "u_2")
      (strOf "u:1") (strOf "u:2")
      (.left _ (.right _ (.left _ (.right _ .nil))))
      (by decide) (by decide) (by decide) (by decide) (by decide)).2.2
    (by decide)).1,
   ((user_isolation 10 ⟨[], []⟩
      [StoreOp.addTurn (strOf "s1") (strOf "user") (strOf "A1") 0,
       StoreOp.addTurn (strOf "s2") (strOf "user") (strOf "B1") 1,
       StoreOp.memSave (strOf "u:1") (strOf "m1"),
       StoreOp.memDelete (strOf "u:2")]
      [StoreOp.addTurn (strOf "s1") (strOf "user") (strOf "A1") 0,
       StoreOp.memSave (strOf "u:1") (strOf "m1")]
      [StoreOp.addTurn (strOf "s2") (strOf "user") (strOf "B1") 1,
       StoreOp.memDelete (strOf "u:2")]
      (strOf "s1") (strOf "s2") (strOf "u_1") (strOf "u_2")
      (strOf "u:1") (strOf "u:2")
      (.left _ (.right _ (.left _ (.right _ .nil))))
      (by decide) (by decide) (by decide) (by decide) (by decide)).2.2
    (by decide)).2⟩

end Clawdbot
